import Mathlib

/- Shallow embedding of src/multibubble_lab.py (core simulation, without the
   CLI / CSV / plotting glue). Python floats are modelled as rationals; the
   two pseudo-random streams (the numpy generator and the python random
   module) are modelled as explicit tapes of draws threaded through the
   state; math.exp is an abstract parameter of the dynamics. -/

namespace MultibubbleLab

/-- The three sovereignty modes of SovereigntyPolicy. -/
inductive Mode where
  | closed
  | consensual
  | open'
deriving DecidableEq, Repr

/-- SovereigntyPolicy constructor: accepts exactly the three literal mode
strings and rejects anything else with a ValueError. -/
def modeOfString (mode : String) : Except String Mode :=
  if mode = "closed" then .ok .closed
  else if mode = "consensual" then .ok .consensual
  else if mode = "open" then .ok .open'
  else .error ("policy must be closed, consensual, or open")

/-- SovereigntyPolicy.scale. -/
def Mode.scale : Mode → ℚ
  | .open' => 1
  | .consensual => 1/2
  | .closed => 0

/-- SovereigntyPolicy.allows_export. -/
def Mode.allows_export : Mode → Bool
  | .closed => false
  | .consensual => true
  | .open' => true

/-- EthicsConfig. -/
structure EthicsConfig where
  consent_prob : ℚ := 85/100
  inherit_consent : Bool := true
  strictness : ℚ := 1
deriving DecidableEq, Repr

/-- One entry of the EthicsEngine ledger (the dict appended by
check_and_record). -/
structure DecisionRecord where
  t : Nat
  type : String
  src : Option Nat
  dst : Option Nat
  proposed : ℚ
  allowed : Bool
  amount : ℚ
  policy : Mode
  src_consents : Bool
  dst_consents : Bool
  reason : String
deriving DecidableEq, Repr

/-- The random state: three tapes of library draws (numpy standard-normal
variates, numpy uniform variates, python-random uniform variates), each with
a cursor. The tape functions model the external library generators, which
are not part of this repository. -/
structure Rng where
  norm : Nat → ℚ
  unif : Nat → ℚ
  py : Nat → ℚ
  n_idx : Nat := 0
  u_idx : Nat := 0
  p_idx : Nat := 0

/-- One draw of rng.normal(mu, sigma) is mu + sigma * v with v the next
standard-normal tape value. This returns v; callers apply mu and sigma. -/
def Rng.normDraw (r : Rng) : ℚ × Rng :=
  (r.norm r.n_idx, { r with n_idx := r.n_idx + 1 })

/-- One draw of rng.random(). -/
def Rng.unifDraw (r : Rng) : ℚ × Rng :=
  (r.unif r.u_idx, { r with u_idx := r.u_idx + 1 })

/-- One draw of random.random() (the python random module). -/
def Rng.pyDraw (r : Rng) : ℚ × Rng :=
  (r.py r.p_idx, { r with p_idx := r.p_idx + 1 })

/-- EthicsEngine.decide_consent: a known consent value is returned unchanged
with no draw; an undecided one is resolved by a fresh Bernoulli sample. -/
def decide_consent (cfg : EthicsConfig) (r : Rng) (current : Option Bool) :
    Bool × Rng :=
  match current with
  | some b => (b, r)
  | none =>
    let v := r.pyDraw
    (decide (v.1 < cfg.consent_prob), v.2)

/-- EthicsEngine.check_and_record: returns the (allowed, amount, reason)
triple and the ledger extended with the new record. -/
def check_and_record (policy : Mode) (cfg : EthicsConfig)
    (ledger : List DecisionRecord) (t : Nat) (ev_type : String)
    (src_id dst_id : Option Nat) (proposed_amt : ℚ)
    (src_consents dst_consents : Bool) :
    (Bool × ℚ × String) × List DecisionRecord :=
  let res :=
    if policy.allows_export = false then
      (false, ("policy_closed"), proposed_amt)
    else if policy = Mode.consensual then
      if (src_consents && (if dst_id.isSome then dst_consents else true)) = false then
        (false, ("no_consent"), proposed_amt)
      else
        (true, ("ok"), proposed_amt * policy.scale * cfg.strictness)
    else
      (true, ("ok"), proposed_amt * policy.scale * cfg.strictness)
  let allowed := res.1
  let reason := res.2.1
  let amt := max 0 res.2.2
  let record : DecisionRecord :=
    { t := t, type := ev_type, src := src_id, dst := dst_id,
      proposed := proposed_amt, allowed := allowed,
      amount := if allowed then amt else 0, policy := policy,
      src_consents := src_consents, dst_consents := dst_consents,
      reason := reason }
  ((allowed, amt, reason), ledger ++ [record])

/-- Bubble. -/
structure Bubble where
  id : Nat
  inflation_rate : ℚ
  invariants : ℚ := 0
  stable : Bool := true
  parent_id : Option Nat := none
  consent : Option Bool := none
deriving DecidableEq, Repr

/-- The numeric configuration of Multiverse (constructor arguments). -/
structure Config where
  n_initial : Nat := 1
  policy : Mode := .closed
  ethics : EthicsConfig := {}
  drift_sigma : ℚ := 5/100
  tunnel_rate : ℚ := 5/100
  decay_rate : ℚ := 1/100
  decay_inflection : ℚ := 12/10
  decay_slope : ℚ := 2
  birth_export_mean : ℚ := 2/10
  birth_export_sigma : ℚ := 8/100
  collapse_export_frac : ℚ := 2/10
  max_bubbles : Nat := 20000
  inf_mean : ℚ := 12/10
  inf_sigma : ℚ := 1/10
deriving DecidableEq, Repr

/-- The mutable state of a run. -/
structure Multiverse where
  universes : List Bubble
  t : Nat
  exported_total : ℚ
  ledger : List DecisionRecord
  rng : Rng

/-- Founder creation loop of Multiverse init: n bubbles, each with a normal
inflation draw floored at 0 and consent resolved immediately. -/
def founders (c : Config) : Nat → List Bubble → Rng → List Bubble × Rng
  | 0, l, r => (l, r)
  | n + 1, l, r =>
    let v := r.normDraw
    let inf := max 0 (c.inf_mean + c.inf_sigma * v.1)
    let b := decide_consent c.ethics v.2 none
    founders c n
      (l ++ [{ id := l.length, inflation_rate := inf, invariants := 0,
               stable := true, parent_id := none, consent := some b.1 }]) b.2

/-- Multiverse init with an already-parsed policy mode. -/
def Multiverse.init (c : Config) (rng : Rng) : Multiverse :=
  let f := founders c c.n_initial [] rng
  { universes := f.1, t := 0, exported_total := 0, ledger := [], rng := f.2 }

/-- Multiverse construction from a policy mode string: parses the policy
first (a ValueError there aborts construction before any simulation state
exists), then builds the initial state. -/
def Multiverse.make (policy : String) (c : Config) (rng : Rng) :
    Except String Multiverse :=
  match modeOfString policy with
  | .error e => .error e
  | .ok mo => .ok (Multiverse.init { c with policy := mo } rng)

/-- Multiverse._collapse_prob, with ex standing for math.exp. -/
def collapse_prob (c : Config) (ex : ℚ → ℚ) (u : Bubble) : ℚ :=
  let x := u.inflation_rate - c.decay_inflection
  let logistic := 1 / (1 + ex (-(c.decay_slope * x)))
  let p := c.decay_rate * (1/2 + logistic)
  min (95/100) (max 0 p)

/-- Accumulator of the per-step loop over bubbles: the updated prefix of the
population, the children spawned so far this tick, and the export total,
ledger and rng threaded through. -/
structure LoopState where
  processed : List Bubble
  new : List Bubble
  exported : ℚ
  ledger : List DecisionRecord
  rng : Rng

/-- Drift: gaussian perturbation of the inflation rate, floored at 0. -/
def drift (c : Config) (s : LoopState) (u : Bubble) : LoopState × Bubble :=
  let v := s.rng.normDraw
  ({ s with rng := v.2 },
   { u with inflation_rate := max 0 (u.inflation_rate + c.drift_sigma * v.1) })

/-- Internal production: invariants grow linearly with the inflation rate. -/
def produce (s : LoopState) (u : Bubble) : LoopState × Bubble :=
  (s, { u with invariants := u.invariants + 5/100 + 15/100 * u.inflation_rate })

/-- Tunneling: under the population cap, a uniform trial against the tunnel
rate; on success a child is created, a birth export is proposed, authorized
through check_and_record, and applied to the two balances. nTotal is the
population size at the start of the tick (constant during the loop). -/
def tunnel (c : Config) (t nTotal : Nat) (s : LoopState) (u : Bubble) :
    LoopState × Bubble :=
  if nTotal + s.new.length < c.max_bubbles then
    let tv := s.rng.unifDraw
    if tv.1 < c.tunnel_rate then
      let cv := tv.2.normDraw
      let child_inf := max 0 (u.inflation_rate + 5/100 * cv.1)
      let cc : Option Bool × Rng :=
        if c.ethics.inherit_consent then (u.consent, cv.2)
        else
          let b := decide_consent c.ethics cv.2 none
          (some b.1, b.2)
      let child : Bubble :=
        { id := nTotal + s.new.length, inflation_rate := child_inf,
          invariants := 0, stable := true, parent_id := some u.id,
          consent := cc.1 }
      let pv := cc.2.normDraw
      let proposed0 := max 0 (c.birth_export_mean + c.birth_export_sigma * pv.1)
      let proposed := min proposed0 u.invariants
      let sc := decide_consent c.ethics pv.2 u.consent
      let dc := decide_consent c.ethics sc.2 child.consent
      let res :=
        check_and_record c.policy c.ethics s.ledger t ("birth")
          (some u.id) (some child.id) proposed sc.1 dc.1
      if res.1.1 = true ∧ 0 < res.1.2.1 then
        ({ s with
            rng := dc.2, ledger := res.2,
            exported := s.exported + res.1.2.1,
            new := s.new ++ [{ child with invariants := child.invariants + res.1.2.1 }] },
         { u with invariants := u.invariants - res.1.2.1 })
      else
        ({ s with rng := dc.2, ledger := res.2, new := s.new ++ [child] }, u)
    else ({ s with rng := tv.2 }, u)
  else (s, u)

/-- Collapse: a uniform trial against the clamped hazard; on success a
collapse export (a fraction of the invariants, no destination) is proposed
and authorized, then the bubble is zeroed and marked unstable regardless. -/
def collapse (c : Config) (ex : ℚ → ℚ) (t : Nat) (s : LoopState) (u : Bubble) :
    LoopState × Bubble :=
  let wv := s.rng.unifDraw
  if wv.1 < collapse_prob c ex u then
    let proposed := c.collapse_export_frac * u.invariants
    let sc := decide_consent c.ethics wv.2 u.consent
    let res :=
      check_and_record c.policy c.ethics s.ledger t ("collapse")
        (some u.id) none proposed sc.1 true
    let exported :=
      if res.1.1 = true ∧ 0 < res.1.2.1 then s.exported + res.1.2.1 else s.exported
    ({ s with rng := sc.2, ledger := res.2, exported := exported },
     { u with invariants := 0, stable := false })
  else ({ s with rng := wv.2 }, u)

/-- Processing of one bubble inside step: unstable bubbles are skipped
untouched (no draws); stable ones go through drift, production, tunneling
and collapse in order, and the updated bubble is appended in place. -/
def stepBubble (c : Config) (ex : ℚ → ℚ) (t nTotal : Nat)
    (s : LoopState) (u : Bubble) : LoopState :=
  if u.stable = false then { s with processed := s.processed ++ [u] }
  else
    let p1 := drift c s u
    let p2 := produce p1.1 p1.2
    let p3 := tunnel c t nTotal p2.1 p2.2
    let p4 := collapse c ex t p3.1 p3.2
    { p4.1 with processed := p4.1.processed ++ [p4.2] }

/-- Multiverse.step: one tick over the bubbles alive at its start; queued
children are appended after the full pass. -/
def Multiverse.step (c : Config) (ex : ℚ → ℚ) (m : Multiverse) : Multiverse :=
  let t := m.t + 1
  let s0 : LoopState :=
    { processed := [], new := [], exported := m.exported_total,
      ledger := m.ledger, rng := m.rng }
  let s := m.universes.foldl (stepBubble c ex t m.universes.length) s0
  { universes := s.processed ++ s.new, t := t, exported_total := s.exported,
    ledger := s.ledger, rng := s.rng }

/-- n-fold iteration of step. -/
def iterSteps (c : Config) (ex : ℚ → ℚ) : Nat → Multiverse → Multiverse
  | 0, m => m
  | n + 1, m => iterSteps c ex n (m.step c ex)

/-- Multiverse.metrics. -/
structure Metrics where
  t : Nat
  universes_total : Nat
  universes_stable : Nat
  RCI : ℚ
  dE : ℚ
  mean_inflation : ℚ
  mean_invariants : ℚ
deriving DecidableEq, Repr

/-- Multiverse.metrics: a pure snapshot of the state. -/
def Multiverse.metrics (m : Multiverse) : Metrics :=
  let total := m.universes.length
  let stableList := m.universes.filter (fun u => u.stable)
  let stable := stableList.length
  { t := m.t, universes_total := total, universes_stable := stable,
    RCI := if total = 0 then 0 else (stable : ℚ) / total,
    dE := m.exported_total,
    mean_inflation :=
      if stable = 0 then 0 else (stableList.map Bubble.inflation_rate).sum / stable,
    mean_invariants :=
      if stable = 0 then 0 else (stableList.map Bubble.invariants).sum / stable }

/-- Modelled from the spec: the deterministic pseudo-random source seeded at
construction (numpy default_rng and random.seed, library code outside this
repository) is modelled as a linear congruential generator, so that every
tape value is a fixed function of the seed. -/
def lcg (x : Nat) : Nat :=
  (6364136223846793005 * x + 1442695040888963407) % (2 ^ 64)

/-- Plain iteration of a function. -/
def iterate {α : Type} (f : α → α) : Nat → α → α
  | 0, a => a
  | n + 1, a => iterate f n (f a)

/-- Modelled from the spec: tape k of the seeded source, value number i. -/
def lcgStream (seed k i : Nat) : ℚ :=
  (((iterate lcg (i + 1) (lcg (seed * 3 + k))) % 2 ^ 30 : Nat) : ℚ) / 2 ^ 30

/-- Modelled from the spec: the random state obtained by seeding the
pseudo-random source with a fixed integer seed at construction. -/
def seededRng (seed : Nat) : Rng :=
  { norm := lcgStream seed 0, unif := lcgStream seed 1, py := lcgStream seed 2 }

/-- The metrics snapshots of a run: the step-0 snapshot followed by one
snapshot after each of the n steps. -/
def metricsTrace (c : Config) (ex : ℚ → ℚ) (rng : Rng) (n : Nat) : List Metrics :=
  (List.range (n + 1)).map (fun k => (iterSteps c ex k (Multiverse.init c rng)).metrics)

/- ------------------------------------------------------------------ -/
/- Characterizations of check_and_record, one per branch.              -/
/- ------------------------------------------------------------------ -/

lemma check_and_record_closed (cfg : EthicsConfig) (ledger : List DecisionRecord)
    (t : Nat) (ev : String) (src dst : Option Nat) (p : ℚ) (sc dc : Bool) :
    check_and_record Mode.closed cfg ledger t ev src dst p sc dc =
      ((false, max 0 p, ("policy_closed")),
       ledger ++ [{ t := t, type := ev, src := src, dst := dst, proposed := p,
                    allowed := false, amount := 0, policy := Mode.closed,
                    src_consents := sc, dst_consents := dc,
                    reason := ("policy_closed") }]) := rfl

lemma check_and_record_consensual_no (cfg : EthicsConfig)
    (ledger : List DecisionRecord) (t : Nat) (ev : String) (src dst : Option Nat)
    (p : ℚ) (sc dc : Bool)
    (h : (sc && (if dst.isSome then dc else true)) = false) :
    check_and_record Mode.consensual cfg ledger t ev src dst p sc dc =
      ((false, max 0 p, ("no_consent")),
       ledger ++ [{ t := t, type := ev, src := src, dst := dst, proposed := p,
                    allowed := false, amount := 0, policy := Mode.consensual,
                    src_consents := sc, dst_consents := dc,
                    reason := ("no_consent") }]) := by
  simp only [check_and_record, Mode.allows_export, h]
  rfl

lemma check_and_record_allowed (policy : Mode) (cfg : EthicsConfig)
    (ledger : List DecisionRecord) (t : Nat) (ev : String) (src dst : Option Nat)
    (p : ℚ) (sc dc : Bool)
    (h : policy = Mode.open' ∨
      (policy = Mode.consensual ∧ (sc && (if dst.isSome then dc else true)) = true)) :
    check_and_record policy cfg ledger t ev src dst p sc dc =
      ((true, max 0 (p * policy.scale * cfg.strictness), ("ok")),
       ledger ++ [{ t := t, type := ev, src := src, dst := dst, proposed := p,
                    allowed := true,
                    amount := max 0 (p * policy.scale * cfg.strictness),
                    policy := policy, src_consents := sc, dst_consents := dc,
                    reason := ("ok") }]) := by
  rcases h with h | ⟨h1, h2⟩
  · subst h
    rfl
  · subst h1
    simp only [check_and_record, Mode.allows_export, h2]
    rfl

/- ------------------------------------------------------------------ -/
/- Closed-policy invariants along a run.                               -/
/- ------------------------------------------------------------------ -/

lemma tunnel_closed (c : Config) (hp : c.policy = Mode.closed) (t nT : Nat)
    (s : LoopState) (u : Bubble) :
    (tunnel c t nT s u).1.exported = s.exported ∧
    ∀ r ∈ (tunnel c t nT s u).1.ledger,
      r ∈ s.ledger ∨ (r.allowed = false ∧ r.reason = ("policy_closed")) := by
  simp only [tunnel, hp, check_and_record_closed]
  split
  · split
    · constructor
      · simp
      · intro r hr
        simp at hr
        rcases hr with hr | hr
        · exact Or.inl hr
        · exact Or.inr ⟨by rw [hr], by rw [hr]⟩
    · exact ⟨rfl, fun r hr => Or.inl hr⟩
  · exact ⟨rfl, fun r hr => Or.inl hr⟩

lemma collapse_closed (c : Config) (hp : c.policy = Mode.closed) (ex : ℚ → ℚ)
    (t : Nat) (s : LoopState) (u : Bubble) :
    (collapse c ex t s u).1.exported = s.exported ∧
    ∀ r ∈ (collapse c ex t s u).1.ledger,
      r ∈ s.ledger ∨ (r.allowed = false ∧ r.reason = ("policy_closed")) := by
  simp only [collapse, hp, check_and_record_closed]
  split
  · constructor
    · simp
    · intro r hr
      simp at hr
      rcases hr with hr | hr
      · exact Or.inl hr
      · exact Or.inr ⟨by rw [hr], by rw [hr]⟩
  · exact ⟨rfl, fun r hr => Or.inl hr⟩

lemma stepBubble_closed (c : Config) (hp : c.policy = Mode.closed) (ex : ℚ → ℚ)
    (t nT : Nat) (s : LoopState) (u : Bubble) :
    (stepBubble c ex t nT s u).exported = s.exported ∧
    ∀ r ∈ (stepBubble c ex t nT s u).ledger,
      r ∈ s.ledger ∨ (r.allowed = false ∧ r.reason = ("policy_closed")) := by
  simp only [stepBubble]
  split
  · exact ⟨rfl, fun r hr => Or.inl hr⟩
  · have ht := tunnel_closed c hp t nT
      (produce (drift c s u).1 (drift c s u).2).1
      (produce (drift c s u).1 (drift c s u).2).2
    have hc := collapse_closed c hp ex t
      (tunnel c t nT (produce (drift c s u).1 (drift c s u).2).1
        (produce (drift c s u).1 (drift c s u).2).2).1
      (tunnel c t nT (produce (drift c s u).1 (drift c s u).2).1
        (produce (drift c s u).1 (drift c s u).2).2).2
    constructor
    · exact hc.1.trans ht.1
    · intro r hr
      rcases hc.2 r hr with h | h
      · rcases ht.2 r h with h2 | h2
        · exact Or.inl h2
        · exact Or.inr h2
      · exact Or.inr h

lemma foldl_closed (c : Config) (hp : c.policy = Mode.closed) (ex : ℚ → ℚ)
    (t nT : Nat) :
    ∀ (l : List Bubble) (s : LoopState),
      (s.exported = 0 ∧ ∀ r ∈ s.ledger, r.allowed = false ∧ r.reason = ("policy_closed")) →
      ((l.foldl (stepBubble c ex t nT) s).exported = 0 ∧
       ∀ r ∈ (l.foldl (stepBubble c ex t nT) s).ledger,
         r.allowed = false ∧ r.reason = ("policy_closed"))
  | [], _, h => h
  | u :: l, s, h => by
    apply foldl_closed c hp ex t nT l
    obtain ⟨he, hl⟩ := h
    obtain ⟨se, sl⟩ := stepBubble_closed c hp ex t nT s u
    refine ⟨se.trans he, ?_⟩
    intro r hr
    rcases sl r hr with h2 | h2
    · exact hl r h2
    · exact h2

lemma step_closed (c : Config) (hp : c.policy = Mode.closed) (ex : ℚ → ℚ)
    (m : Multiverse)
    (h : m.exported_total = 0 ∧
      ∀ r ∈ m.ledger, r.allowed = false ∧ r.reason = ("policy_closed")) :
    (m.step c ex).exported_total = 0 ∧
    ∀ r ∈ (m.step c ex).ledger, r.allowed = false ∧ r.reason = ("policy_closed") :=
  foldl_closed c hp ex (m.t + 1) m.universes.length m.universes
    { processed := [], new := [], exported := m.exported_total,
      ledger := m.ledger, rng := m.rng } h

lemma iter_closed (c : Config) (hp : c.policy = Mode.closed) (ex : ℚ → ℚ) :
    ∀ (n : Nat) (m : Multiverse),
      (m.exported_total = 0 ∧
        ∀ r ∈ m.ledger, r.allowed = false ∧ r.reason = ("policy_closed")) →
      ((iterSteps c ex n m).exported_total = 0 ∧
       ∀ r ∈ (iterSteps c ex n m).ledger,
         r.allowed = false ∧ r.reason = ("policy_closed"))
  | 0, _, h => h
  | n + 1, m, h => iter_closed c hp ex n (m.step c ex) (step_closed c hp ex m h)

/- ------------------------------------------------------------------ -/
/- Structural facts about the per-bubble operations.                   -/
/- ------------------------------------------------------------------ -/

lemma foldl_pres {α σ : Type _} (f : σ → α → σ) (P : σ → Prop)
    (h : ∀ s a, P s → P (f s a)) :
    ∀ (l : List α) (s : σ), P s → P (l.foldl f s)
  | [], _, hs => hs
  | a :: l, s, hs => foldl_pres f P h l (f s a) (h s a hs)

lemma drift_fst (c : Config) (s : LoopState) (u : Bubble) :
    (drift c s u).1 = { s with rng := s.rng.normDraw.2 } := rfl

lemma produce_fst (s : LoopState) (u : Bubble) : (produce s u).1 = s := rfl

lemma tunnel_processed (c : Config) (t nT : Nat) (s : LoopState) (u : Bubble) :
    (tunnel c t nT s u).1.processed = s.processed := by
  simp only [tunnel]
  split
  · split
    · split <;> split <;> rfl
    · rfl
  · rfl

lemma collapse_processed (c : Config) (ex : ℚ → ℚ) (t : Nat) (s : LoopState)
    (u : Bubble) : (collapse c ex t s u).1.processed = s.processed := by
  simp only [collapse]
  split <;> rfl

lemma collapse_new (c : Config) (ex : ℚ → ℚ) (t : Nat) (s : LoopState)
    (u : Bubble) : (collapse c ex t s u).1.new = s.new := by
  simp only [collapse]
  split <;> rfl

lemma tunnel_skip_of_cap (c : Config) (t nT : Nat) (s : LoopState) (u : Bubble)
    (h : c.max_bubbles ≤ nT + s.new.length) :
    tunnel c t nT s u = (s, u) := by
  simp only [tunnel]
  rw [if_neg (by omega : ¬ (nT + s.new.length < c.max_bubbles))]

lemma tunnel_new_length (c : Config) (t nT : Nat) (s : LoopState) (u : Bubble) :
    (tunnel c t nT s u).1.new.length = s.new.length ∨
    ((tunnel c t nT s u).1.new.length = s.new.length + 1 ∧
      nT + s.new.length < c.max_bubbles) := by
  simp only [tunnel]
  split
  · split
    · split <;> split <;> exact Or.inr ⟨by simp, by assumption⟩
    · exact Or.inl rfl
  · exact Or.inl rfl

lemma stepBubble_processed_length (c : Config) (ex : ℚ → ℚ) (t nT : Nat)
    (s : LoopState) (u : Bubble) :
    (stepBubble c ex t nT s u).processed.length = s.processed.length + 1 := by
  simp only [stepBubble]
  split
  · simp
  · simp [List.length_append, collapse_processed, tunnel_processed, produce_fst,
      drift_fst]

lemma stepBubble_new_length (c : Config) (ex : ℚ → ℚ) (t nT : Nat)
    (s : LoopState) (u : Bubble) :
    (stepBubble c ex t nT s u).new.length = s.new.length ∨
    ((stepBubble c ex t nT s u).new.length = s.new.length + 1 ∧
      nT + s.new.length < c.max_bubbles) := by
  simp only [stepBubble]
  split
  · exact Or.inl rfl
  · have hc := collapse_new c ex t
      (tunnel c t nT (produce (drift c s u).1 (drift c s u).2).1
        (produce (drift c s u).1 (drift c s u).2).2).1
      (tunnel c t nT (produce (drift c s u).1 (drift c s u).2).1
        (produce (drift c s u).1 (drift c s u).2).2).2
    have ht := tunnel_new_length c t nT
      (produce (drift c s u).1 (drift c s u).2).1
      (produce (drift c s u).1 (drift c s u).2).2
    rcases ht with ht | ⟨ht, hcap⟩
    · left
      simpa [hc] using ht
    · right
      exact ⟨by simpa [hc] using ht, hcap⟩

lemma foldl_processed_length (c : Config) (ex : ℚ → ℚ) (t nT : Nat) :
    ∀ (l : List Bubble) (s : LoopState),
      (l.foldl (stepBubble c ex t nT) s).processed.length =
        s.processed.length + l.length
  | [], _ => rfl
  | u :: l, s => by
    rw [List.foldl_cons, foldl_processed_length c ex t nT l,
      stepBubble_processed_length]
    simp
    omega

lemma foldl_new_bound (c : Config) (ex : ℚ → ℚ) (t nT : Nat)
    (l : List Bubble) (s : LoopState)
    (h : nT + s.new.length ≤ max nT c.max_bubbles) :
    nT + (l.foldl (stepBubble c ex t nT) s).new.length ≤ max nT c.max_bubbles := by
  refine foldl_pres (stepBubble c ex t nT)
    (fun s => nT + s.new.length ≤ max nT c.max_bubbles) ?_ l s h
  intro s u hs
  rcases stepBubble_new_length c ex t nT s u with h2 | ⟨h2, hcap⟩
  · omega
  · rw [h2]
    have := le_max_right nT c.max_bubbles
    omega

lemma step_length_le (c : Config) (ex : ℚ → ℚ) (m : Multiverse) :
    (m.step c ex).universes.length ≤ max m.universes.length c.max_bubbles := by
  have hb := foldl_new_bound c ex (m.t + 1) m.universes.length m.universes
    { processed := [], new := [], exported := m.exported_total,
      ledger := m.ledger, rng := m.rng } (by simp)
  have hp := foldl_processed_length c ex (m.t + 1) m.universes.length m.universes
    { processed := [], new := [], exported := m.exported_total,
      ledger := m.ledger, rng := m.rng }
  simp only [List.length_nil, Nat.zero_add] at hp
  simp only [Multiverse.step, List.length_append]
  omega

lemma founders_length (c : Config) :
    ∀ (n : Nat) (l : List Bubble) (r : Rng),
      (founders c n l r).1.length = l.length + n
  | 0, _, _ => rfl
  | n + 1, l, r => by
    rw [founders, founders_length c n]
    simp
    omega

lemma init_length (c : Config) (rng : Rng) :
    (Multiverse.init c rng).universes.length = c.n_initial := by
  show (founders c c.n_initial [] rng).1.length = c.n_initial
  rw [founders_length]
  simp

lemma stepBubble_new_nil (c : Config) (ex : ℚ → ℚ) (t nT : Nat)
    (hK : c.max_bubbles ≤ nT) (s : LoopState) (u : Bubble) (h : s.new = []) :
    (stepBubble c ex t nT s u).new = [] := by
  simp only [stepBubble]
  split
  · exact h
  · rw [collapse_new, tunnel_skip_of_cap]
    · exact h
    · show c.max_bubbles ≤ nT + s.new.length
      rw [h]
      simpa using hK

lemma foldl_new_nil (c : Config) (ex : ℚ → ℚ) (t nT : Nat)
    (hK : c.max_bubbles ≤ nT) (l : List Bubble) (s : LoopState) (h : s.new = []) :
    (l.foldl (stepBubble c ex t nT) s).new = [] :=
  foldl_pres (stepBubble c ex t nT) (fun s => s.new = [])
    (fun s u hs => stepBubble_new_nil c ex t nT hK s u hs) l s h

lemma step_length_of_cap (c : Config) (ex : ℚ → ℚ) (m : Multiverse)
    (hK : c.max_bubbles ≤ m.universes.length) :
    (m.step c ex).universes.length = m.universes.length := by
  have hn := foldl_new_nil c ex (m.t + 1) m.universes.length hK m.universes
    { processed := [], new := [], exported := m.exported_total,
      ledger := m.ledger, rng := m.rng } rfl
  have hp := foldl_processed_length c ex (m.t + 1) m.universes.length m.universes
    { processed := [], new := [], exported := m.exported_total,
      ledger := m.ledger, rng := m.rng }
  simp only [List.length_nil, Nat.zero_add] at hp
  simp only [Multiverse.step, List.length_append, hn]
  simp [hp]

lemma iter_length_of_cap (c : Config) (ex : ℚ → ℚ) (N : Nat)
    (hK : c.max_bubbles ≤ N) :
    ∀ (n : Nat) (m : Multiverse), m.universes.length = N →
      (iterSteps c ex n m).universes.length = N
  | 0, _, h => h
  | n + 1, m, h =>
    iter_length_of_cap c ex N hK n (m.step c ex)
      (by rw [step_length_of_cap c ex m (by omega)]; exact h)

lemma iter_length_le (c : Config) (ex : ℚ → ℚ) :
    ∀ (n : Nat) (m : Multiverse),
      (iterSteps c ex n m).universes.length ≤ max m.universes.length c.max_bubbles
  | 0, _ => le_max_left _ _
  | n + 1, m => by
    have h1 := iter_length_le c ex n (m.step c ex)
    have h2 := step_length_le c ex m
    exact le_trans h1 (max_le (le_trans h2 le_rfl) (le_max_right _ _))

/- ------------------------------------------------------------------ -/
/- Identifier bookkeeping.                                             -/
/- ------------------------------------------------------------------ -/

lemma drift_snd_id (c : Config) (s : LoopState) (u : Bubble) :
    (drift c s u).2.id = u.id := rfl

lemma produce_snd_id (s : LoopState) (u : Bubble) :
    (produce s u).2.id = u.id := rfl

lemma tunnel_snd_id (c : Config) (t nT : Nat) (s : LoopState) (u : Bubble) :
    (tunnel c t nT s u).2.id = u.id := by
  simp only [tunnel]
  split
  · split
    · split <;> split <;> rfl
    · rfl
  · rfl

lemma collapse_snd_id (c : Config) (ex : ℚ → ℚ) (t : Nat) (s : LoopState)
    (u : Bubble) : (collapse c ex t s u).2.id = u.id := by
  simp only [collapse]
  split <;> rfl

lemma tunnel_new_map_id (c : Config) (t nT : Nat) (s : LoopState) (u : Bubble) :
    (tunnel c t nT s u).1.new.map Bubble.id = s.new.map Bubble.id ∨
    (tunnel c t nT s u).1.new.map Bubble.id =
      s.new.map Bubble.id ++ [nT + s.new.length] := by
  simp only [tunnel]
  split
  · split
    · split <;> split <;> exact Or.inr (by simp)
    · exact Or.inl rfl
  · exact Or.inl rfl

lemma stepBubble_ids (c : Config) (ex : ℚ → ℚ) (t nT : Nat) (s : LoopState)
    (u : Bubble) :
    (stepBubble c ex t nT s u).processed.map Bubble.id =
      s.processed.map Bubble.id ++ [u.id] ∧
    ((stepBubble c ex t nT s u).new.map Bubble.id = s.new.map Bubble.id ∨
     (stepBubble c ex t nT s u).new.map Bubble.id =
       s.new.map Bubble.id ++ [nT + s.new.length]) := by
  simp only [stepBubble]
  split
  · exact ⟨by simp, Or.inl rfl⟩
  · constructor
    · show ((collapse c ex t _ _).1.processed ++ [(collapse c ex t _ _).2]).map Bubble.id = _
      rw [List.map_append, collapse_processed, tunnel_processed, produce_fst,
        drift_fst]
      simp only [List.map_cons, List.map_nil, collapse_snd_id, tunnel_snd_id,
        produce_snd_id, drift_snd_id]
    · show (collapse c ex t _ _).1.new.map Bubble.id = _ ∨
        (collapse c ex t _ _).1.new.map Bubble.id = _
      rw [collapse_new]
      rcases tunnel_new_map_id c t nT
          (produce (drift c s u).1 (drift c s u).2).1
          (produce (drift c s u).1 (drift c s u).2).2 with h | h
      · exact Or.inl h
      · exact Or.inr h

lemma foldl_ids (c : Config) (ex : ℚ → ℚ) (t nT : Nat) :
    ∀ (l : List Bubble) (s : LoopState),
      s.new.map Bubble.id = List.range' nT s.new.length →
      ((l.foldl (stepBubble c ex t nT) s).processed.map Bubble.id =
        s.processed.map Bubble.id ++ l.map Bubble.id ∧
       (l.foldl (stepBubble c ex t nT) s).new.map Bubble.id =
        List.range' nT ((l.foldl (stepBubble c ex t nT) s).new.length))
  | [], s, h => ⟨by simp, h⟩
  | u :: l, s, h => by
    have hstep := stepBubble_ids c ex t nT s u
    have hnew : (stepBubble c ex t nT s u).new.map Bubble.id =
        List.range' nT ((stepBubble c ex t nT s u).new.length) := by
      rcases hstep.2 with h2 | h2
      · have hlen : (stepBubble c ex t nT s u).new.length = s.new.length := by
          have := congrArg List.length h2
          simpa using this
        rw [h2, h, hlen]
      · have hlen : (stepBubble c ex t nT s u).new.length = s.new.length + 1 := by
          have := congrArg List.length h2
          simpa using this
        rw [h2, h, hlen, List.range'_1_concat]
    have hrec := foldl_ids c ex t nT l (stepBubble c ex t nT s u) hnew
    refine ⟨?_, hrec.2⟩
    rw [List.foldl_cons, hrec.1, hstep.1, List.map_cons]
    simp

lemma step_ids (c : Config) (ex : ℚ → ℚ) (m : Multiverse)
    (h : m.universes.map Bubble.id = List.range m.universes.length) :
    (m.step c ex).universes.map Bubble.id =
      List.range (m.step c ex).universes.length := by
  have hf := foldl_ids c ex (m.t + 1) m.universes.length m.universes
    { processed := [], new := [], exported := m.exported_total,
      ledger := m.ledger, rng := m.rng } (by simp [List.range'])
  obtain ⟨hp, hn⟩ := hf
  simp only [List.map_nil, List.nil_append] at hp
  have hplen := foldl_processed_length c ex (m.t + 1) m.universes.length
    m.universes
    { processed := [], new := [], exported := m.exported_total,
      ledger := m.ledger, rng := m.rng }
  simp only [List.length_nil, Nat.zero_add] at hplen
  simp only [Multiverse.step]
  rw [List.map_append, hp, hn, h, List.length_append, hplen,
    List.range_eq_range', List.range_eq_range']
  have ha := List.range'_append 0 m.universes.length
    ((List.foldl (stepBubble c ex (m.t + 1) m.universes.length)
      { processed := [], new := [], exported := m.exported_total,
        ledger := m.ledger, rng := m.rng } m.universes).new.length) 1
  simp only [Nat.zero_add, Nat.one_mul] at ha
  rw [Nat.add_comm m.universes.length _]
  exact ha

lemma founders_ids (c : Config) :
    ∀ (n : Nat) (l : List Bubble) (r : Rng),
      l.map Bubble.id = List.range l.length →
      (founders c n l r).1.map Bubble.id =
        List.range (founders c n l r).1.length
  | 0, _, _, h => h
  | n + 1, l, r, h => by
    rw [founders]
    apply founders_ids c n
    rw [List.map_append, h]
    simp [List.length_append, List.range_succ]

lemma iter_ids (c : Config) (ex : ℚ → ℚ) :
    ∀ (n : Nat) (m : Multiverse),
      m.universes.map Bubble.id = List.range m.universes.length →
      (iterSteps c ex n m).universes.map Bubble.id =
        List.range (iterSteps c ex n m).universes.length
  | 0, _, h => h
  | n + 1, m, h => iter_ids c ex n (m.step c ex) (step_ids c ex m h)

/- ------------------------------------------------------------------ -/
/- Non-negativity of balances.                                         -/
/- ------------------------------------------------------------------ -/

lemma scale_nonneg (p : Mode) : 0 ≤ p.scale := by
  cases p <;> norm_num [Mode.scale]

lemma scale_le_one (p : Mode) : p.scale ≤ 1 := by
  cases p <;> norm_num [Mode.scale]

lemma check_amt_nonneg (policy : Mode) (cfg : EthicsConfig)
    (ledger : List DecisionRecord) (t : Nat) (ev : String) (src dst : Option Nat)
    (p : ℚ) (sc dc : Bool) :
    0 ≤ (check_and_record policy cfg ledger t ev src dst p sc dc).1.2.1 :=
  le_max_left 0 _

lemma check_and_record_amount (policy : Mode) (cfg : EthicsConfig)
    (ledger : List DecisionRecord) (t : Nat) (ev : String) (src dst : Option Nat)
    (p : ℚ) (sc dc : Bool)
    (hs0 : 0 ≤ cfg.strictness) (hs1 : cfg.strictness ≤ 1) (hp : 0 ≤ p) :
    (check_and_record policy cfg ledger t ev src dst p sc dc).1.2.1 ≤ p := by
  have hσ1 : policy.scale * cfg.strictness ≤ 1 :=
    mul_le_one₀ (scale_le_one policy) hs0 hs1
  simp only [check_and_record]
  repeat' split
  all_goals
    first
    | exact max_le hp le_rfl
    | { refine max_le hp ?_
        rw [mul_assoc]
        exact mul_le_of_le_one_right hp hσ1 }

lemma nonneg_after_debit (policy : Mode) (cfg : EthicsConfig)
    (ledger : List DecisionRecord) (t : Nat) (ev : String) (src dst : Option Nat)
    (p : ℚ) (sc dc : Bool) (inv : ℚ)
    (hs0 : 0 ≤ cfg.strictness) (hs1 : cfg.strictness ≤ 1)
    (hp : 0 ≤ p) (hple : p ≤ inv) :
    0 ≤ inv - (check_and_record policy cfg ledger t ev src dst p sc dc).1.2.1 := by
  have h := check_and_record_amount policy cfg ledger t ev src dst p sc dc hs0 hs1 hp
  linarith

lemma drift_snd_inv (c : Config) (s : LoopState) (u : Bubble) :
    (drift c s u).2.invariants = u.invariants := rfl

lemma drift_snd_inf_nonneg (c : Config) (s : LoopState) (u : Bubble) :
    0 ≤ (drift c s u).2.inflation_rate := le_max_left 0 _

lemma produce_snd_inv_nonneg (s : LoopState) (u : Bubble)
    (hu : 0 ≤ u.invariants) (hinf : 0 ≤ u.inflation_rate) :
    0 ≤ (produce s u).2.invariants := by
  show 0 ≤ u.invariants + 5/100 + 15/100 * u.inflation_rate
  have h1 : (0 : ℚ) ≤ 15/100 * u.inflation_rate := by positivity
  linarith

lemma tunnel_snd_inv_nonneg (c : Config) (t nT : Nat) (s : LoopState)
    (u : Bubble) (hs0 : 0 ≤ c.ethics.strictness)
    (hs1 : c.ethics.strictness ≤ 1) (hu : 0 ≤ u.invariants) :
    0 ≤ (tunnel c t nT s u).2.invariants := by
  simp only [tunnel]
  split
  · split
    · split <;> split
      all_goals
        first
        | exact hu
        | { apply nonneg_after_debit
            · exact hs0
            · exact hs1
            · exact le_min (le_max_left 0 _) hu
            · exact min_le_right _ _ }
    · exact hu
  · exact hu

lemma tunnel_new_nonneg (c : Config) (t nT : Nat) (s : LoopState) (u : Bubble)
    (hnew : ∀ b ∈ s.new, 0 ≤ b.invariants) :
    ∀ b ∈ (tunnel c t nT s u).1.new, 0 ≤ b.invariants := by
  simp only [tunnel]
  split
  · split
    · split <;> split
      all_goals
        intro b hb
        simp only [List.mem_append, List.mem_singleton] at hb
        rcases hb with hb | hb
        · exact hnew b hb
        · subst hb
          show (0 : ℚ) ≤ _
          first
          | exact le_refl 0
          | { show (0 : ℚ) ≤ 0 + _
              rw [zero_add]
              apply check_amt_nonneg }
    · exact hnew
  · exact hnew

lemma collapse_snd_inv_nonneg (c : Config) (ex : ℚ → ℚ) (t : Nat)
    (s : LoopState) (u : Bubble) (hu : 0 ≤ u.invariants) :
    0 ≤ (collapse c ex t s u).2.invariants := by
  simp only [collapse]
  split
  · exact le_refl 0
  · exact hu

lemma stepBubble_nonneg (c : Config) (ex : ℚ → ℚ) (t nT : Nat)
    (hs0 : 0 ≤ c.ethics.strictness) (hs1 : c.ethics.strictness ≤ 1)
    (s : LoopState) (u : Bubble) (hu : 0 ≤ u.invariants)
    (h : (∀ b ∈ s.processed, 0 ≤ b.invariants) ∧ (∀ b ∈ s.new, 0 ≤ b.invariants)) :
    (∀ b ∈ (stepBubble c ex t nT s u).processed, 0 ≤ b.invariants) ∧
    (∀ b ∈ (stepBubble c ex t nT s u).new, 0 ≤ b.invariants) := by
  simp only [stepBubble]
  split
  · constructor
    · intro b hb
      rcases List.mem_append.mp hb with hb | hb
      · exact h.1 b hb
      · rw [List.mem_singleton.mp hb]
        exact hu
    · exact h.2
  · constructor
    · intro b hb
      rcases List.mem_append.mp hb with hb | hb
      · refine h.1 b ?_
        have e : (collapse c ex t
            (tunnel c t nT (produce (drift c s u).1 (drift c s u).2).1
              (produce (drift c s u).1 (drift c s u).2).2).1
            (tunnel c t nT (produce (drift c s u).1 (drift c s u).2).1
              (produce (drift c s u).1 (drift c s u).2).2).2).1.processed =
            s.processed := by
          rw [collapse_processed, tunnel_processed]
          rfl
        exact e ▸ hb
      · rw [List.mem_singleton.mp hb]
        apply collapse_snd_inv_nonneg
        apply tunnel_snd_inv_nonneg c t nT _ _ hs0 hs1
        apply produce_snd_inv_nonneg
        · exact hu
        · exact drift_snd_inf_nonneg c s u
    · intro b hb
      have e : (collapse c ex t
          (tunnel c t nT (produce (drift c s u).1 (drift c s u).2).1
            (produce (drift c s u).1 (drift c s u).2).2).1
          (tunnel c t nT (produce (drift c s u).1 (drift c s u).2).1
            (produce (drift c s u).1 (drift c s u).2).2).2).1.new =
          (tunnel c t nT (produce (drift c s u).1 (drift c s u).2).1
            (produce (drift c s u).1 (drift c s u).2).2).1.new :=
        collapse_new c ex t _ _
      refine tunnel_new_nonneg c t nT
        (produce (drift c s u).1 (drift c s u).2).1
        (produce (drift c s u).1 (drift c s u).2).2
        ?_ b (e ▸ hb)
      exact h.2

lemma foldl_nonneg (c : Config) (ex : ℚ → ℚ) (t nT : Nat)
    (hs0 : 0 ≤ c.ethics.strictness) (hs1 : c.ethics.strictness ≤ 1) :
    ∀ (l : List Bubble) (s : LoopState),
      (∀ b ∈ l, 0 ≤ b.invariants) →
      (∀ b ∈ s.processed, 0 ≤ b.invariants) →
      (∀ b ∈ s.new, 0 ≤ b.invariants) →
      ((∀ b ∈ (l.foldl (stepBubble c ex t nT) s).processed, 0 ≤ b.invariants) ∧
       (∀ b ∈ (l.foldl (stepBubble c ex t nT) s).new, 0 ≤ b.invariants))
  | [], _, _, hp, hn => ⟨hp, hn⟩
  | u :: l, s, hl, hp, hn => by
    have hstep := stepBubble_nonneg c ex t nT hs0 hs1 s u
      (hl u (List.mem_cons_self u l)) ⟨hp, hn⟩
    exact foldl_nonneg c ex t nT hs0 hs1 l (stepBubble c ex t nT s u)
      (fun b hb => hl b (List.mem_cons_of_mem u hb)) hstep.1 hstep.2

lemma step_nonneg (c : Config) (ex : ℚ → ℚ) (m : Multiverse)
    (hs0 : 0 ≤ c.ethics.strictness) (hs1 : c.ethics.strictness ≤ 1)
    (h : ∀ b ∈ m.universes, 0 ≤ b.invariants) :
    ∀ b ∈ (m.step c ex).universes, 0 ≤ b.invariants := by
  intro b hb
  have hf := foldl_nonneg c ex (m.t + 1) m.universes.length hs0 hs1 m.universes
    { processed := [], new := [], exported := m.exported_total,
      ledger := m.ledger, rng := m.rng } h
    (by intro b hb; simp at hb) (by intro b hb; simp at hb)
  rcases List.mem_append.mp hb with hb | hb
  · exact hf.1 b hb
  · exact hf.2 b hb

lemma iter_nonneg (c : Config) (ex : ℚ → ℚ)
    (hs0 : 0 ≤ c.ethics.strictness) (hs1 : c.ethics.strictness ≤ 1) :
    ∀ (n : Nat) (m : Multiverse),
      (∀ b ∈ m.universes, 0 ≤ b.invariants) →
      ∀ b ∈ (iterSteps c ex n m).universes, 0 ≤ b.invariants
  | 0, _, h => h
  | n + 1, m, h =>
    iter_nonneg c ex hs0 hs1 n (m.step c ex) (step_nonneg c ex m hs0 hs1 h)

lemma founders_nonneg (c : Config) :
    ∀ (n : Nat) (l : List Bubble) (r : Rng),
      (∀ b ∈ l, 0 ≤ b.invariants) →
      ∀ b ∈ (founders c n l r).1, 0 ≤ b.invariants
  | 0, _, _, h => h
  | n + 1, l, r, h => by
    rw [founders]
    apply founders_nonneg c n
    intro b hb
    rcases List.mem_append.mp hb with hb | hb
    · exact h b hb
    · rw [List.mem_singleton.mp hb]

/- ------------------------------------------------------------------ -/
/- Zero decay rate: no collapse, stability flags preserved.            -/
/- ------------------------------------------------------------------ -/

lemma Rng.normDraw_unif (r : Rng) : r.normDraw.2.unif = r.unif := rfl

lemma Rng.unifDraw_unif (r : Rng) : r.unifDraw.2.unif = r.unif := rfl

lemma Rng.pyDraw_unif (r : Rng) : r.pyDraw.2.unif = r.unif := rfl

lemma decide_consent_unif (cfg : EthicsConfig) (r : Rng) (cur : Option Bool) :
    (decide_consent cfg r cur).2.unif = r.unif := by
  cases cur <;> rfl

lemma tunnel_unif (c : Config) (t nT : Nat) (s : LoopState) (u : Bubble) :
    (tunnel c t nT s u).1.rng.unif = s.rng.unif := by
  simp only [tunnel]
  split
  · split
    · split <;> split <;>
        simp [decide_consent_unif, Rng.normDraw_unif, Rng.unifDraw_unif,
          Rng.pyDraw_unif]
    · rfl
  · rfl

lemma collapse_unif (c : Config) (ex : ℚ → ℚ) (t : Nat) (s : LoopState)
    (u : Bubble) : (collapse c ex t s u).1.rng.unif = s.rng.unif := by
  simp only [collapse]
  split
  · simp [decide_consent_unif, Rng.unifDraw_unif]
  · rfl

lemma stepBubble_unif (c : Config) (ex : ℚ → ℚ) (t nT : Nat) (s : LoopState)
    (u : Bubble) : (stepBubble c ex t nT s u).rng.unif = s.rng.unif := by
  simp only [stepBubble]
  split
  · rfl
  · simp only [collapse_unif, tunnel_unif, produce_fst, drift_fst]
    rfl

lemma foldl_unif (c : Config) (ex : ℚ → ℚ) (t nT : Nat) (l : List Bubble)
    (s : LoopState) :
    (l.foldl (stepBubble c ex t nT) s).rng.unif = s.rng.unif :=
  foldl_pres (stepBubble c ex t nT) (fun s2 => s2.rng.unif = s.rng.unif)
    (fun s2 u h => (stepBubble_unif c ex t nT s2 u).trans h) l s rfl

lemma step_unif (c : Config) (ex : ℚ → ℚ) (m : Multiverse) :
    (m.step c ex).rng.unif = m.rng.unif := by
  simp only [Multiverse.step]
  exact foldl_unif c ex (m.t + 1) m.universes.length m.universes
    { processed := [], new := [], exported := m.exported_total,
      ledger := m.ledger, rng := m.rng }

lemma founders_unif (c : Config) :
    ∀ (n : Nat) (l : List Bubble) (r : Rng),
      (founders c n l r).2.unif = r.unif
  | 0, _, _ => rfl
  | n + 1, l, r => by
    rw [founders, founders_unif c n]
    simp [decide_consent_unif, Rng.normDraw_unif]

lemma init_unif (c : Config) (rng : Rng) :
    (Multiverse.init c rng).rng.unif = rng.unif :=
  founders_unif c c.n_initial [] rng

lemma iter_unif (c : Config) (ex : ℚ → ℚ) :
    ∀ (n : Nat) (m : Multiverse),
      (iterSteps c ex n m).rng.unif = m.rng.unif
  | 0, _ => rfl
  | n + 1, m => (iter_unif c ex n (m.step c ex)).trans (step_unif c ex m)

lemma iterSteps_succ (c : Config) (ex : ℚ → ℚ) :
    ∀ (n : Nat) (m : Multiverse),
      iterSteps c ex (n + 1) m = (iterSteps c ex n m).step c ex
  | 0, _ => rfl
  | n + 1, m => iterSteps_succ c ex n (m.step c ex)

lemma collapse_prob_zero (c : Config) (ex : ℚ → ℚ) (u : Bubble)
    (hd : c.decay_rate = 0) : collapse_prob c ex u = 0 := by
  simp only [collapse_prob, hd, zero_mul, max_self]
  exact min_eq_right (by norm_num)

lemma collapse_skip (c : Config) (ex : ℚ → ℚ) (t : Nat) (s : LoopState)
    (u : Bubble) (hd : c.decay_rate = 0)
    (h0 : 0 ≤ s.rng.unif s.rng.u_idx) :
    collapse c ex t s u = ({ s with rng := s.rng.unifDraw.2 }, u) := by
  have hlt : ¬ (s.rng.unifDraw.1 < collapse_prob c ex u) := by
    rw [collapse_prob_zero c ex u hd]
    exact not_lt.mpr h0
  simp only [collapse]
  rw [if_neg hlt]

lemma drift_snd_stable (c : Config) (s : LoopState) (u : Bubble) :
    (drift c s u).2.stable = u.stable := rfl

lemma produce_snd_stable (s : LoopState) (u : Bubble) :
    (produce s u).2.stable = u.stable := rfl

lemma tunnel_snd_stable (c : Config) (t nT : Nat) (s : LoopState) (u : Bubble) :
    (tunnel c t nT s u).2.stable = u.stable := by
  simp only [tunnel]
  split
  · split
    · split <;> split <;> rfl
    · rfl
  · rfl

lemma tunnel_new_stable (c : Config) (t nT : Nat) (s : LoopState) (u : Bubble)
    (h : ∀ b ∈ s.new, b.stable = true) :
    ∀ b ∈ (tunnel c t nT s u).1.new, b.stable = true := by
  simp only [tunnel]
  split
  · split
    · split <;> split
      all_goals
        intro b hb
        simp only [List.mem_append, List.mem_singleton] at hb
        rcases hb with hb | hb
        · exact h b hb
        · rw [hb]
    · exact h
  · exact h

lemma stepBubble_stable (c : Config) (ex : ℚ → ℚ) (t nT : Nat) (s : LoopState)
    (u : Bubble) (hd : c.decay_rate = 0) (hr : ∀ i, 0 ≤ s.rng.unif i) :
    (stepBubble c ex t nT s u).processed.map Bubble.stable =
      s.processed.map Bubble.stable ++ [u.stable] := by
  simp only [stepBubble]
  split
  · simp
  · have hT : (tunnel c t nT (produce (drift c s u).1 (drift c s u).2).1
        (produce (drift c s u).1 (drift c s u).2).2).1.rng.unif = s.rng.unif := by
      rw [tunnel_unif]
      rfl
    have hskip := collapse_skip c ex t
      (tunnel c t nT (produce (drift c s u).1 (drift c s u).2).1
        (produce (drift c s u).1 (drift c s u).2).2).1
      (tunnel c t nT (produce (drift c s u).1 (drift c s u).2).1
        (produce (drift c s u).1 (drift c s u).2).2).2
      hd (by rw [hT]; exact hr _)
    rw [List.map_append, collapse_processed, tunnel_processed, hskip]
    simp [tunnel_snd_stable, produce_snd_stable, drift_snd_stable, produce_fst,
      drift_fst]

lemma foldl_stable (c : Config) (ex : ℚ → ℚ) (t nT : Nat)
    (hd : c.decay_rate = 0) :
    ∀ (l : List Bubble) (s : LoopState), (∀ i, 0 ≤ s.rng.unif i) →
      (l.foldl (stepBubble c ex t nT) s).processed.map Bubble.stable =
        s.processed.map Bubble.stable ++ l.map Bubble.stable
  | [], _, _ => by simp
  | u :: l, s, h => by
    have hstep := stepBubble_stable c ex t nT s u hd h
    have hr2 : ∀ i, 0 ≤ (stepBubble c ex t nT s u).rng.unif i := by
      rw [stepBubble_unif]
      exact h
    rw [List.foldl_cons, foldl_stable c ex t nT hd l _ hr2, hstep, List.map_cons]
    simp

lemma step_stable_prefix (c : Config) (ex : ℚ → ℚ) (m : Multiverse)
    (hd : c.decay_rate = 0) (hr : ∀ i, 0 ≤ m.rng.unif i) :
    ((m.step c ex).universes.map Bubble.stable).take m.universes.length =
      m.universes.map Bubble.stable := by
  have hmap := foldl_stable c ex (m.t + 1) m.universes.length hd m.universes
    { processed := [], new := [], exported := m.exported_total,
      ledger := m.ledger, rng := m.rng } (fun i => hr i)
  simp only [List.map_nil, List.nil_append] at hmap
  simp only [Multiverse.step]
  rw [List.map_append, hmap]
  have hlen : (m.universes.map Bubble.stable).length = m.universes.length :=
    List.length_map _ _
  rw [← hlen, List.take_left]

lemma step_stable_count (c : Config) (ex : ℚ → ℚ) (m : Multiverse)
    (hd : c.decay_rate = 0) (hr : ∀ i, 0 ≤ m.rng.unif i) :
    m.universes.countP (fun u => u.stable) ≤
      (m.step c ex).universes.countP (fun u => u.stable) := by
  have hmap := foldl_stable c ex (m.t + 1) m.universes.length hd m.universes
    { processed := [], new := [], exported := m.exported_total,
      ledger := m.ledger, rng := m.rng } (fun i => hr i)
  simp only [List.map_nil, List.nil_append] at hmap
  simp only [Multiverse.step]
  rw [List.countP_append]
  have hcount : (m.universes.foldl
      (stepBubble c ex (m.t + 1) m.universes.length)
      { processed := [], new := [], exported := m.exported_total,
        ledger := m.ledger, rng := m.rng }).processed.countP
        (fun u => u.stable) =
      m.universes.countP (fun u => u.stable) := by
    calc (m.universes.foldl (stepBubble c ex (m.t + 1) m.universes.length)
        { processed := [], new := [], exported := m.exported_total,
          ledger := m.ledger, rng := m.rng }).processed.countP
          (fun u => u.stable)
        = ((m.universes.foldl (stepBubble c ex (m.t + 1) m.universes.length)
            { processed := [], new := [], exported := m.exported_total,
              ledger := m.ledger, rng := m.rng }).processed.map
              Bubble.stable).countP (fun b => b) := by
          rw [List.countP_map]
          rfl
      _ = (m.universes.map Bubble.stable).countP (fun b => b) := by rw [hmap]
      _ = m.universes.countP (fun u => u.stable) := by
          rw [List.countP_map]
          rfl
  rw [hcount]
  exact Nat.le_add_right _ _

/- ------------------------------------------------------------------ -/
/- Claims                                                              -/
/- ------------------------------------------------------------------ -/

/-- C1, as stated, is false on the code: with a closed policy and proposed
amount 1, the returned triple of check_and_record carries amount
max 0 1 = 1, not 0 (only the ledger record zeroes the amount). -/
theorem C1_counterexample :
    ¬ ((check_and_record Mode.closed {} [] 1 ("birth") (some 0) none 1
        true true).1.2.1 = 0) := by
  rw [check_and_record_closed]
  norm_num

/-- C1 (amended): every disallowed authorize call (closed policy, or
consensual with failed source or destination consent) returns allowed=false
with the corresponding reason code, returns an amount equal to the proposed
amount clamped at 0 (not scaled, not zeroed), and appends a ledger record
whose amount field is exactly 0. -/
theorem C1_authorize_disallowed (policy : Mode) (cfg : EthicsConfig)
    (ledger : List DecisionRecord) (t : Nat) (ev : String) (src dst : Option Nat)
    (p : ℚ) (sc dc : Bool)
    (h : policy = Mode.closed ∨
      (policy = Mode.consensual ∧ (sc && (if dst.isSome then dc else true)) = false)) :
    (check_and_record policy cfg ledger t ev src dst p sc dc).1.1 = false ∧
    (check_and_record policy cfg ledger t ev src dst p sc dc).1.2.2 =
      (if policy = Mode.closed then ("policy_closed") else ("no_consent")) ∧
    (check_and_record policy cfg ledger t ev src dst p sc dc).1.2.1 = max 0 p ∧
    (check_and_record policy cfg ledger t ev src dst p sc dc).2 =
      ledger ++ [{ t := t, type := ev, src := src, dst := dst, proposed := p,
                   allowed := false, amount := 0, policy := policy,
                   src_consents := sc, dst_consents := dc,
                   reason := if policy = Mode.closed then ("policy_closed")
                             else ("no_consent") }] := by
  rcases h with h | ⟨h1, h2⟩
  · subst h
    rw [check_and_record_closed]
    simp
  · subst h1
    rw [check_and_record_consensual_no cfg ledger t ev src dst p sc dc h2]
    simp

/-- Witness for C1_authorize_disallowed at a concrete disallowed call. -/
theorem C1_witness :
    (check_and_record Mode.closed {} [] 1 ("birth") (some 0) (some 1) 2
      true true).1.1 = false :=
  (C1_authorize_disallowed Mode.closed {} [] 1 ("birth") (some 0) (some 1) 2
    true true (Or.inl rfl)).1

/-- C8: with strictness 0 and an allowing policy (open, or consensual with
all required consents), the call is allowed but the returned amount is
exactly 0 for every proposed amount. -/
theorem C8_strictness_zero (policy : Mode) (cfg : EthicsConfig)
    (ledger : List DecisionRecord) (t : Nat) (ev : String) (src dst : Option Nat)
    (p : ℚ) (sc dc : Bool) (hs : cfg.strictness = 0)
    (h : policy = Mode.open' ∨
      (policy = Mode.consensual ∧ (sc && (if dst.isSome then dc else true)) = true)) :
    (check_and_record policy cfg ledger t ev src dst p sc dc).1.1 = true ∧
    (check_and_record policy cfg ledger t ev src dst p sc dc).1.2.1 = 0 := by
  rw [check_and_record_allowed policy cfg ledger t ev src dst p sc dc h]
  simp [hs]

/-- Witness for C8_strictness_zero at a concrete open-policy call. -/
theorem C8_witness :
    (check_and_record Mode.open' { strictness := 0 } [] 3 ("birth") (some 0)
      (some 1) 7 true true).1.2.1 = 0 :=
  (C8_strictness_zero Mode.open' { strictness := 0 } [] 3 ("birth") (some 0)
    (some 1) 7 true true rfl (Or.inl rfl)).2

/-- C9: constructing a policy fails exactly on mode strings outside the
three literals, and the failure happens at Multiverse construction before
any simulation state exists; for the valid modes, scale is 1, 1/2, 0 for
open, consensual, closed, and allows_export holds exactly for consensual
and open. -/
theorem C9_policy_validation :
    (∀ s : String, (∃ e, modeOfString s = .error e) ↔
      ¬(s = "closed" ∨ s = "consensual" ∨ s = "open")) ∧
    Mode.scale .open' = 1 ∧ Mode.scale .consensual = 1/2 ∧
    Mode.scale .closed = 0 ∧
    Mode.allows_export .open' = true ∧
    Mode.allows_export .consensual = true ∧
    Mode.allows_export .closed = false ∧
    (∀ (c : Config) (rng : Rng) (s : String),
      ¬(s = "closed" ∨ s = "consensual" ∨ s = "open") →
      Multiverse.make s c rng =
        .error ("policy must be closed, consensual, or open")) := by
  refine ⟨?_, rfl, rfl, rfl, rfl, rfl, rfl, ?_⟩
  · intro s
    unfold modeOfString
    split
    · simp_all
    · split
      · simp_all
      · split
        · simp_all
        · simp_all
  · intro c rng s hs
    push_neg at hs
    unfold Multiverse.make modeOfString
    simp [hs.1, hs.2.1, hs.2.2]

/-- Witness for C9_policy_validation at a concrete invalid mode string. -/
theorem C9_witness :
    Multiverse.make ("sovereign") {} (seededRng 0) =
      .error ("policy must be closed, consensual, or open") :=
  C9_policy_validation.2.2.2.2.2.2.2 {} (seededRng 0) ("sovereign") (by simp)

/-- C2: with a closed policy, for every rng tape (hence every seed) and any
number of steps, the cumulative exported total is exactly 0 and every ledger
record has allowed=false and reason policy_closed. -/
theorem C2_closed_policy_invariant (c : Config) (rng : Rng) (ex : ℚ → ℚ)
    (n : Nat) (hp : c.policy = Mode.closed) :
    (iterSteps c ex n (Multiverse.init c rng)).exported_total = 0 ∧
    ∀ r ∈ (iterSteps c ex n (Multiverse.init c rng)).ledger,
      r.allowed = false ∧ r.reason = ("policy_closed") := by
  apply iter_closed c hp ex n
  constructor
  · rfl
  · intro r hr
    simp [Multiverse.init] at hr

/-- Witness for C2_closed_policy_invariant on a concrete closed run. -/
theorem C2_witness :
    (iterSteps {} (fun q => q) 2 (Multiverse.init {} (seededRng 0))).exported_total = 0 :=
  (C2_closed_policy_invariant {} (seededRng 0) (fun q => q) 2 rfl).1

/-- C4: with population cap K = max_bubbles, (i) once the current count plus
the children already spawned this tick reaches the cap, the reproduction
attempt is skipped entirely: tunnel returns the state and bubble unchanged,
drawing no trial and queueing no child; (ii) whenever a child is queued, the
count at the decision point was strictly below the cap; (iii) one step never
grows the population beyond max(before, K); (iv) a whole run never grows it
beyond max(n_initial, K). -/
theorem C4_population_cap (c : Config) (ex : ℚ → ℚ) (t nT : Nat) :
    (∀ (s : LoopState) (u : Bubble), c.max_bubbles ≤ nT + s.new.length →
      tunnel c t nT s u = (s, u)) ∧
    (∀ (s : LoopState) (u : Bubble),
      (tunnel c t nT s u).1.new.length ≠ s.new.length →
      nT + s.new.length < c.max_bubbles) ∧
    (∀ m : Multiverse,
      (m.step c ex).universes.length ≤ max m.universes.length c.max_bubbles) ∧
    (∀ (rng : Rng) (n : Nat),
      (iterSteps c ex n (Multiverse.init c rng)).universes.length ≤
        max c.n_initial c.max_bubbles) := by
  refine ⟨tunnel_skip_of_cap c t nT, ?_, step_length_le c ex, ?_⟩
  · intro s u hne
    by_contra hcap
    push_neg at hcap
    exact hne (by rw [tunnel_skip_of_cap c t nT s u hcap])
  · intro rng n
    have := iter_length_le c ex n (Multiverse.init c rng)
    rwa [init_length] at this

/-- Witness for C4_population_cap at a concrete capped state. -/
theorem C4_witness :
    tunnel { max_bubbles := 3 } 1 5
      { processed := [], new := [], exported := 0, ledger := [],
        rng := seededRng 0 }
      { id := 0, inflation_rate := 1 } =
    ({ processed := [], new := [], exported := 0, ledger := [],
       rng := seededRng 0 },
     { id := 0, inflation_rate := 1 }) :=
  (C4_population_cap { max_bubbles := 3 } (fun q => q) 1 5).1
    { processed := [], new := [], exported := 0, ledger := [],
      rng := seededRng 0 }
    { id := 0, inflation_rate := 1 } (by decide)

/-- C10: construction always creates exactly n_initial founders (the cap is
not consulted at construction), and when n_initial exceeds max_bubbles the
run still constructs, every later reproduction attempt is skipped, and the
population stays at exactly n_initial forever. -/
theorem C10_founders_ignore_cap (c : Config) (rng : Rng) (ex : ℚ → ℚ) :
    (Multiverse.init c rng).universes.length = c.n_initial ∧
    (c.max_bubbles < c.n_initial →
      ∀ n, (iterSteps c ex n (Multiverse.init c rng)).universes.length =
        c.n_initial) := by
  refine ⟨init_length c rng, fun hcap n => ?_⟩
  exact iter_length_of_cap c ex c.n_initial (le_of_lt hcap) n _ (init_length c rng)

/-- Witness for C10_founders_ignore_cap with 2 founders and cap 1. -/
theorem C10_witness :
    (iterSteps { n_initial := 2, max_bubbles := 1 } (fun q => q) 1
      (Multiverse.init { n_initial := 2, max_bubbles := 1 }
        (seededRng 0))).universes.length = 2 :=
  (C10_founders_ignore_cap { n_initial := 2, max_bubbles := 1 } (seededRng 0)
    (fun q => q)).2 (by decide) 1

/-- C3: with strictness in [0,1] (the spec range for that parameter), every
entity balance stays nonnegative: after construction and after any number of
full steps all balances are ≥ 0, and each in-step operation (drift leaves
balances unchanged, production, the tunneling debit/credit, collapse)
preserves nonnegativity of the bubble it touches and of the children queued
so far. -/
theorem C3_resource_nonneg (c : Config) (rng : Rng) (ex : ℚ → ℚ)
    (hs0 : 0 ≤ c.ethics.strictness) (hs1 : c.ethics.strictness ≤ 1) :
    (∀ n, ∀ b ∈ (iterSteps c ex n (Multiverse.init c rng)).universes,
      0 ≤ b.invariants) ∧
    (∀ (s : LoopState) (u : Bubble), (drift c s u).2.invariants = u.invariants) ∧
    (∀ (s : LoopState) (u : Bubble), 0 ≤ u.invariants → 0 ≤ u.inflation_rate →
      0 ≤ (produce s u).2.invariants) ∧
    (∀ (t nT : Nat) (s : LoopState) (u : Bubble), 0 ≤ u.invariants →
      0 ≤ (tunnel c t nT s u).2.invariants) ∧
    (∀ (t nT : Nat) (s : LoopState) (u : Bubble),
      (∀ b ∈ s.new, 0 ≤ b.invariants) →
      ∀ b ∈ (tunnel c t nT s u).1.new, 0 ≤ b.invariants) ∧
    (∀ (t : Nat) (s : LoopState) (u : Bubble), 0 ≤ u.invariants →
      0 ≤ (collapse c ex t s u).2.invariants) := by
  refine ⟨?_, fun s u => drift_snd_inv c s u,
    fun s u => produce_snd_inv_nonneg s u,
    fun t nT s u hu => tunnel_snd_inv_nonneg c t nT s u hs0 hs1 hu,
    fun t nT s u hnew => tunnel_new_nonneg c t nT s u hnew,
    fun t s u hu => collapse_snd_inv_nonneg c ex t s u hu⟩
  intro n
  exact iter_nonneg c ex hs0 hs1 n (Multiverse.init c rng)
    (founders_nonneg c c.n_initial [] rng (by intro b hb; simp at hb))

/-- Witness for C3_resource_nonneg at a concrete tunnel call. -/
theorem C3_witness :
    0 ≤ (tunnel {} 1 0
      { processed := [], new := [], exported := 0, ledger := [],
        rng := seededRng 0 }
      { id := 0, inflation_rate := 1 }).2.invariants :=
  (C3_resource_nonneg {} (seededRng 0) (fun q => q) (by norm_num)
    (by norm_num)).2.2.2.1 1 0
    { processed := [], new := [], exported := 0, ledger := [],
      rng := seededRng 0 }
    { id := 0, inflation_rate := 1 } (by norm_num)

/-- C7: with decay_rate = 0 the per-entity collapse hazard is 0 for every
bubble at every growth rate, so over any run (with the uniform tape in the
codomain of rng.random, i.e. nonnegative) no stability flag is ever cleared
(each step preserves the flags of the bubbles that existed before it) and
the stable count never decreases from one step to the next. -/
theorem C7_decay_zero (c : Config) (rng : Rng) (ex : ℚ → ℚ)
    (hd : c.decay_rate = 0) (hr : ∀ i, 0 ≤ rng.unif i) :
    (∀ u : Bubble, collapse_prob c ex u = 0) ∧
    (∀ n, ((iterSteps c ex (n + 1) (Multiverse.init c rng)).universes.map
        Bubble.stable).take
        ((iterSteps c ex n (Multiverse.init c rng)).universes.length) =
      (iterSteps c ex n (Multiverse.init c rng)).universes.map Bubble.stable) ∧
    (∀ n, (iterSteps c ex n (Multiverse.init c rng)).universes.countP
        (fun u => u.stable) ≤
      (iterSteps c ex (n + 1) (Multiverse.init c rng)).universes.countP
        (fun u => u.stable)) := by
  have hru : ∀ n i, 0 ≤ (iterSteps c ex n (Multiverse.init c rng)).rng.unif i := by
    intro n i
    rw [iter_unif, init_unif]
    exact hr i
  refine ⟨fun u => collapse_prob_zero c ex u hd, fun n => ?_, fun n => ?_⟩
  · rw [iterSteps_succ]
    exact step_stable_prefix c ex _ hd (hru n)
  · rw [iterSteps_succ]
    exact step_stable_count c ex _ hd (hru n)

/-- Witness for C7_decay_zero on a one-step zero-decay run. -/
theorem C7_witness :
    (iterSteps { decay_rate := 0 } (fun q => q) 0
      (Multiverse.init { decay_rate := 0 } (seededRng 0))).universes.countP
      (fun u => u.stable) ≤
    (iterSteps { decay_rate := 0 } (fun q => q) 1
      (Multiverse.init { decay_rate := 0 } (seededRng 0))).universes.countP
      (fun u => u.stable) :=
  (C7_decay_zero { decay_rate := 0 } (seededRng 0) (fun q => q) rfl
    (fun i => by
      show (0 : ℚ) ≤ lcgStream 0 1 i
      unfold lcgStream
      positivity)).2.2 0

/-- C6: two runs constructed from equal configuration parameters, equal
dynamics environment, and the same fixed integer seed, stepped equally
often, produce identical metrics traces (step 0 included) and identical
ledgers, entry for entry. -/
theorem C6_determinism (c1 c2 : Config) (ex1 ex2 : ℚ → ℚ)
    (seed1 seed2 : Nat) (n1 n2 : Nat)
    (hc : c1 = c2) (he : ex1 = ex2) (hs : seed1 = seed2) (hn : n1 = n2) :
    metricsTrace c1 ex1 (seededRng seed1) n1 =
      metricsTrace c2 ex2 (seededRng seed2) n2 ∧
    (iterSteps c1 ex1 n1 (Multiverse.init c1 (seededRng seed1))).ledger =
      (iterSteps c2 ex2 n2 (Multiverse.init c2 (seededRng seed2))).ledger := by
  subst hc
  subst he
  subst hs
  subst hn
  exact ⟨rfl, rfl⟩

/-- Witness for C6_determinism at a concrete seed and configuration. -/
theorem C6_witness :
    metricsTrace {} (fun q => q) (seededRng 7) 1 =
      metricsTrace {} (fun q => q) (seededRng 7) 1 :=
  (C6_determinism {} {} (fun q => q) (fun q => q) 7 7 1 1 rfl rfl rfl rfl).1

/-- C5: for every configuration, rng tape (hence every seed) and number of
steps, the ids of the population in creation order are exactly 0, 1, 2, ...:
the map of ids equals List.range of the population size, so the sequence is
contiguous and strictly increasing with no gaps or repeats, across collapsed
and alive bubbles alike. -/
theorem C5_id_monotonicity (c : Config) (rng : Rng) (ex : ℚ → ℚ) (n : Nat) :
    (iterSteps c ex n (Multiverse.init c rng)).universes.map Bubble.id =
      List.range ((iterSteps c ex n (Multiverse.init c rng)).universes.length) := by
  apply iter_ids
  exact founders_ids c c.n_initial [] rng rfl

end MultibubbleLab
